import Mathlib

/-
Verification development for the gml2html repository (three Python files:
extract_shibuya_scramble.py, extract_b3dm_to_glb.py, g2h.py).

Byte sequences are modelled as `List Nat` (one entry per byte); file paths as
`String`; the file system visible to the tileset walker as a partial map
`String -> Option (List Nat)` from absolute paths to file contents.
-/

set_option autoImplicit false

/-- Little-endian unsigned 32-bit read, as performed by Python's
`struct.unpack_from` at a byte offset.  All call sites in the
sources read at offsets 4..24 after checking `len(data) >= 28`, so the
`getD` default is never reached on the guarded paths. -/
def le32 (data : List Nat) (off : Nat) : Nat :=
  data.getD off 0 + 2 ^ 8 * data.getD (off + 1) 0
    + 2 ^ 16 * data.getD (off + 2) 0 + 2 ^ 24 * data.getD (off + 3) 0

/-- The ASCII bytes of the container magic "b3dm". -/
def magicBytes : List Nat := [98, 51, 100, 109]

/-- Python's `bytes.decode('ascii', errors='ignore')` drops every byte that is
not 7-bit ASCII; comparing the result with "b3dm" therefore compares the
ASCII-filtered first four bytes with the magic byte values. -/
def asciiDecodeIgnore (bs : List Nat) : List Nat :=
  bs.filter (fun b => b < 128)

/-- The magic test `data[0:4].decode('ascii', errors='ignore') == 'b3dm'`
shared by all three parser copies. -/
def magicOk (data : List Nat) : Bool :=
  decide (asciiDecodeIgnore (data.take 4) = magicBytes)

/-- The payload offset `28 + ftJsonLen + ftBinLen + btJsonLen + btBinLen`
computed identically by all three parser copies. -/
def glbOffset (data : List Nat) : Nat :=
  28 + le32 data 12 + le32 data 16 + le32 data 20 + le32 data 24

/-- Failure kinds of the container parsers, one per distinct `ValueError`
message in the sources ("b3dm too small" / "not b3dm" in both
`extract_b3dm_to_glb_bytes` copies, plus "Calculated GLB offset beyond file
length." raised only by `extract_b3dm_glb` in g2h.py). -/
inductive B3dmError where
  | tooSmall
  | badMagic
  | offsetOutOfRange
deriving DecidableEq, Repr

/-- Python's `data[o:e]` slice for natural indices: indices are clamped to the
buffer, and an empty slice results when `o >= e` or `o >= len(data)`. -/
def payloadSlice (data : List Nat) (o e : Nat) : List Nat :=
  (data.take e).drop o

namespace ShibuyaScramble

/-- Model of `extract_b3dm_to_glb_bytes` in extract_shibuya_scramble.py
(lines 52-67).  The function returns the slice `data[glb_offset:end]`; we
return the half-open index range `(glb_offset, end)` that the code slices
with; the bytes are `payloadSlice data glb_offset end`. -/
def extract_b3dm_to_glb_bytes (data : List Nat) : Except B3dmError (Nat × Nat) :=
  if data.length < 28 then .error .tooSmall
  else if ¬ magicOk data then .error .badMagic
  else
    let byteLength := le32 data 8
    let ftJsonLen := le32 data 12
    let ftBinLen := le32 data 16
    let btJsonLen := le32 data 20
    let btBinLen := le32 data 24
    let glb_offset := 28 + ftJsonLen + ftBinLen + btJsonLen + btBinLen
    -- end = byteLength if (byteLength <= len(data) and byteLength > glb_offset) else len(data)
    let stop := if byteLength ≤ data.length ∧ glb_offset < byteLength then byteLength
                else data.length
    .ok (glb_offset, stop)

end ShibuyaScramble

namespace B3dmToGlb

/-- Model of `extract_b3dm_to_glb_bytes` in extract_b3dm_to_glb.py
(lines 17-28); same computation as the extract_shibuya_scramble.py copy,
with `byteLength` read after the four table lengths. -/
def extract_b3dm_to_glb_bytes (data : List Nat) : Except B3dmError (Nat × Nat) :=
  if data.length < 28 then .error .tooSmall
  else if ¬ magicOk data then .error .badMagic
  else
    let ftJsonLen := le32 data 12
    let ftBinLen := le32 data 16
    let btJsonLen := le32 data 20
    let btBinLen := le32 data 24
    let glb_offset := 28 + ftJsonLen + ftBinLen + btJsonLen + btBinLen
    let byteLength := le32 data 8
    let stop := if byteLength ≤ data.length ∧ glb_offset < byteLength then byteLength
                else data.length
    .ok (glb_offset, stop)

end B3dmToGlb

namespace G2h

/-- Model of the parsing core of `extract_b3dm_glb` in g2h.py (lines 95-124):
after the size and magic checks it raises when `glb_offset >= len(data)`, and
otherwise slices `data[glb_offset:byteLength]` when `byteLength <= len(data)`
and `data[glb_offset:]` when not. -/
def extract_b3dm_glb (data : List Nat) : Except B3dmError (Nat × Nat) :=
  if data.length < 28 then .error .tooSmall
  else if ¬ magicOk data then .error .badMagic
  else
    let byteLength := le32 data 8
    let ftJsonLen := le32 data 12
    let ftBinLen := le32 data 16
    let btJsonLen := le32 data 20
    let btBinLen := le32 data 24
    let glb_offset := 28 + ftJsonLen + ftBinLen + btJsonLen + btBinLen
    if data.length ≤ glb_offset then .error .offsetOutOfRange
    else if byteLength ≤ data.length then .ok (glb_offset, byteLength)
    else .ok (glb_offset, data.length)

end G2h

/-- Model of `bbox_intersect` (extract_shibuya_scramble.py lines 42-50,
extract_b3dm_to_glb.py lines 10-15): the region list is destructured into its
first four entries `west, south, east, north`; any further entries (the two
heights of a 6-entry region) are never read.  The Python code raises an
uncaught IndexError on a nonempty region of fewer than four entries; the
walker never reaches that case in the claims below, and real manifests carry
six entries, so the catch-all branch is unreachable in the modelled runs. -/
def bbox_intersect {α : Type*} [LinearOrder α] (region : List α)
    (target_bbox : α × α × α × α) : Bool :=
  match region with
  | west :: south :: east :: north :: _ =>
    let (lon_min, lat_min, lon_max, lat_max) := target_bbox
    if lon_max < west ∨ lon_min > east then false
    else if lat_max < south ∨ lat_min > north then false
    else true
  | _ => false

/-
Path model.  `pathlib.Path` values are modelled as strings with '/' as the
separator; `(base_path / uri).resolve()` is modelled as joining with '/'
(resolution is a deterministic function of base path and uri, which is all the
walker claims depend on).  `Path.name`, `Path.stem` and `Path.suffix` follow
pathlib: the name is everything after the last '/', and the suffix is the part
of the name from its last dot, provided that dot is neither the first nor the
last character of the name.
-/

/-- Model of `(base_path / uri).resolve()`: a deterministic join. -/
def resolvePath (base_path uri : String) : String :=
  base_path ++ "/" ++ uri

/-- Model of `pathlib.Path.name`: the part of the path after the last '/'. -/
def fileName (p : String) : String :=
  String.mk ((p.toList.reverse.takeWhile (fun c => c ≠ '/')).reverse)

/-- Splits a file NAME into (stem, suffix) following pathlib: the suffix
starts at the last dot when that dot's index i satisfies 0 < i < len - 1,
and is empty otherwise. -/
def splitName (n : List Char) : List Char × List Char :=
  let afterDot := n.reverse.takeWhile (fun c => c ≠ '.')
  if afterDot.length < n.length then
    let i := n.length - afterDot.length - 1
    if 0 < i ∧ i + 1 < n.length then (n.take i, n.drop i) else (n, [])
  else (n, [])

/-- Model of `pathlib.Path.suffix` applied to a bare file name. -/
def suffixOfName (n : String) : String :=
  String.mk (splitName n.toList).2

/-- Model of `pathlib.Path.stem` applied to a bare file name. -/
def stemOfName (n : String) : String :=
  String.mk (splitName n.toList).1

/-- Model of `pathlib.Path.suffix` on a full path. -/
def pathSuffix (p : String) : String :=
  suffixOfName (fileName p)

/-- Model of `pathlib.Path.stem` on a full path. -/
def pathStem (p : String) : String :=
  stemOfName (fileName p)

/-- Model of Python's `str.lower()` (the sources lowercase only ASCII file
suffixes).  Defined over the character list so that it evaluates by kernel
reduction. -/
def strLower (t : String) : String :=
  String.mk (t.toList.map Char.toLower)

/-
Tileset walker model (process_tile in extract_shibuya_scramble.py lines
156-223 and extract_b3dm_to_glb.py lines 61-92).  A tile node carries an
optional boundingVolume (which itself may or may not carry a "region" entry),
an optional content uri (`content.get("uri") or content.get("url")`, collapsed
to the resulting optional string), and a list of children.
-/

/-- A boundingVolume dictionary: only its optional "region" entry is read. -/
structure BoundingVolume where
  region : Option (List ℚ)
deriving Repr

/-- A tileset tree node as read by `process_tile`. -/
inductive Tile where
  | mk (boundingVolume : Option BoundingVolume) (content : Option String)
      (children : List Tile)

/-- State threaded through one walker run: the `processed` dedup set, the
`extracted` success counter, and the ordered list of writes into the output
directory, each recorded as (source absolute path, destination file name,
bytes written). -/
structure WalkerState where
  processed : List String
  extracted : Nat
  outputs : List (String × String × List Nat)
deriving Repr

/-- The region lookup `tile.get("boundingVolume", {}).get("region")`. -/
def tileRegion (bv : Option BoundingVolume) : Option (List ℚ) :=
  match bv with
  | none => none
  | some b => b.region

/-- The `intersects` flag of one node: `True` unless the region value is
truthy (present and nonempty), in which case `bbox_intersect` decides. -/
def tileIntersects (target_bbox : ℚ × ℚ × ℚ × ℚ) (bv : Option BoundingVolume) : Bool :=
  match tileRegion bv with
  | none => true
  | some [] => true
  | some region => bbox_intersect region target_bbox

/-- The content-processing half of one `process_tile` visit (the body of
`if intersects and content:`), as a function of the file system `fs`, the
node's `base_path` and content, and the current state.  The b3dm branch adds
the path to `processed` before attempting extraction, so a parse failure
(caught `except`) still marks the path processed without producing an output
or incrementing the counter. -/
def contentStep (fs : String → Option (List Nat)) (base_path : String)
    (content : Option String) (st : WalkerState) : WalkerState :=
  match content with
  | none => st
  | some uri =>
    if uri = "" then st
    else
      let absolute := resolvePath base_path uri
      match fs absolute with
      | none => st
      | some data =>
        if strLower (pathSuffix absolute) = ".b3dm" ∧ absolute ∉ st.processed then
          let stMarked : WalkerState := { st with processed := absolute :: st.processed }
          match B3dmToGlb.extract_b3dm_to_glb_bytes data with
          | .ok oe =>
            { stMarked with
              outputs := stMarked.outputs
                ++ [(absolute, pathStem absolute ++ ".glb", payloadSlice data oe.1 oe.2)],
              extracted := stMarked.extracted + 1 }
          | .error _ => stMarked
        else if (strLower (pathSuffix absolute) = ".glb" ∨ strLower (pathSuffix absolute) = ".gltf")
            ∧ absolute ∉ st.processed then
          { st with processed := absolute :: st.processed,
                    outputs := st.outputs ++ [(absolute, fileName absolute, data)],
                    extracted := st.extracted + 1 }
        else st

mutual

/-- Model of `process_tile(tile, base_path)` over state `st`.  The body
inlines the source structure: compute the node's region and `intersects`
flag, process the content when `intersects and content`, then recurse into
every child with the same `base_path`.  (extract_shibuya_scramble.py carries
an extra else-branch that re-resolves the identical path and re-tests
existence; with deterministic resolution it is unreachable, so both copies
have this same semantics.) -/
def process_tile (fs : String → Option (List Nat)) (target_bbox : ℚ × ℚ × ℚ × ℚ)
    (tile : Tile) (base_path : String) (st : WalkerState) : WalkerState :=
  match tile with
  | .mk bv content children =>
    let region : Option (List ℚ) :=
      match bv with
      | none => none
      | some b => b.region
    let intersects : Bool :=
      match region with
      | none => true
      | some [] => true
      | some r => bbox_intersect r target_bbox
    let st1 : WalkerState :=
      if intersects then
        match content with
        | none => st
        | some uri =>
          if uri = "" then st
          else
            let absolute := resolvePath base_path uri
            match fs absolute with
            | none => st
            | some data =>
              if strLower (pathSuffix absolute) = ".b3dm" ∧ absolute ∉ st.processed then
                let stMarked : WalkerState := { st with processed := absolute :: st.processed }
                match B3dmToGlb.extract_b3dm_to_glb_bytes data with
                | .ok oe =>
                  { stMarked with
                    outputs := stMarked.outputs
                      ++ [(absolute, pathStem absolute ++ ".glb", payloadSlice data oe.1 oe.2)],
                    extracted := stMarked.extracted + 1 }
                | .error _ => stMarked
              else if (strLower (pathSuffix absolute) = ".glb" ∨ strLower (pathSuffix absolute) = ".gltf")
                  ∧ absolute ∉ st.processed then
                { st with processed := absolute :: st.processed,
                          outputs := st.outputs ++ [(absolute, fileName absolute, data)],
                          extracted := st.extracted + 1 }
              else st
      else st
    process_children fs target_bbox children base_path st1

/-- The `for child in tile.get("children", []): process_tile(child, base_path)`
loop: children are visited left to right, threading the state. -/
def process_children (fs : String → Option (List Nat)) (target_bbox : ℚ × ℚ × ℚ × ℚ)
    (tiles : List Tile) (base_path : String) (st : WalkerState) : WalkerState :=
  match tiles with
  | [] => st
  | t :: rest => process_children fs target_bbox rest base_path (process_tile fs target_bbox t base_path st)

end

/-- One parsed manifest: its entry-point tiles (the single `root` node, or the
legacy top-level `tiles` list) and the directory of the tileset.json file,
used as `base_path` for the whole subtree. -/
structure Manifest where
  roots : List Tile
  dir : String

/-- The empty state at the start of a run (`extracted = 0`, empty `processed`
set, nothing written yet). -/
def initState : WalkerState := ⟨[], 0, []⟩

/-- The outer loop over all discovered tileset.json files: each manifest's
entry points are walked with the manifest's own directory as base path, with
`processed` and `extracted` shared across the whole run. -/
def run_walk (fs : String → Option (List Nat)) (target_bbox : ℚ × ℚ × ℚ × ℚ)
    (manifests : List Manifest) (st : WalkerState) : WalkerState :=
  manifests.foldl (fun s m => process_children fs target_bbox m.roots m.dir s) st

/-- A container accepted by the spec's §8 end-to-end scenario: magic "b3dm",
version 1, byteLength 100, ftJsonLen 20, the other table lengths 0, 20 bytes
of feature table followed by 52 payload bytes. -/
def demoValid : List Nat :=
  magicBytes ++ [1, 0, 0, 0] ++ [100, 0, 0, 0] ++ [20, 0, 0, 0]
    ++ List.replicate 12 0 ++ List.replicate 72 1

/-- A 28-byte container with the "b3dm" magic and all-zero length fields: the
computed payload offset 28 equals the buffer length. -/
def demoOffsetAtEnd : List Nat := magicBytes ++ List.replicate 24 0

/-- A 30-byte container with magic "b3dm", declared byteLength 28 (equal to
the payload offset) and two trailing payload bytes. -/
def demoDisagree : List Nat :=
  magicBytes ++ [1, 0, 0, 0] ++ [28, 0, 0, 0] ++ List.replicate 16 0 ++ [170, 187]

/-- A file system holding one unparseable (empty) container file, used to
exhibit that a failed extraction still marks the path processed. -/
def demoFailParse : String → Option (List Nat) :=
  fun p => if p = "base/x.b3dm" then some [] else none

/-- Number of output records whose source path is `p`. -/
def srcCount (p : String) (outs : List (String × String × List Nat)) : Nat :=
  (outs.filter (fun e => e.1 == p)).length

/-- The at-most-once bookkeeping invariant of a walker state: every source
path has produced at most one output, and a path that has produced an output
is in the `processed` set. -/
def DedupInv (st : WalkerState) : Prop :=
  ∀ p, srcCount p st.outputs ≤ 1 ∧ (1 ≤ srcCount p st.outputs → p ∈ st.processed)

/-- The destination file name the walker derives for a source file, as a
function of the source's base name only: container files map to stem + ".glb",
pass-through assets keep their name, anything else produces no output. -/
def dstOfName (b : String) : Option String :=
  if strLower (suffixOfName b) = ".b3dm" then some (stemOfName b ++ ".glb")
  else if strLower (suffixOfName b) = ".glb" ∨ strLower (suffixOfName b) = ".gltf" then some b
  else none

/-- The relation between a state and any state the walker can evolve it to:
the processed set grows, outputs are append-only, each output bumps
`extracted` by one, the dedup invariant is preserved, and every new output's
destination is `dstOfName` of its source's base name. -/
def StepOK (st st' : WalkerState) : Prop :=
  (∀ p, p ∈ st.processed → p ∈ st'.processed) ∧
  (∃ tail, st'.outputs = st.outputs ++ tail) ∧
  st'.extracted + st.outputs.length = st.extracted + st'.outputs.length ∧
  (DedupInv st → DedupInv st') ∧
  (∀ e, e ∈ st'.outputs → e ∈ st.outputs ∨ dstOfName (fileName e.1) = some e.2.1)


/-
Clean closed forms of the three parsers, each proved by `rfl`, used by the
claim proofs below.
-/

/-- Closed form of the extract_shibuya_scramble.py parser. -/
theorem shibuya_extract_eq (d : List Nat) : ShibuyaScramble.extract_b3dm_to_glb_bytes d =
    if d.length < 28 then .error .tooSmall
    else if ¬ magicOk d then .error .badMagic
    else .ok (glbOffset d,
      if le32 d 8 ≤ d.length ∧ glbOffset d < le32 d 8 then le32 d 8 else d.length) := rfl

/-- Closed form of the extract_b3dm_to_glb.py parser; identical to the
extract_shibuya_scramble.py one. -/
theorem b3dmToGlb_extract_eq (d : List Nat) : B3dmToGlb.extract_b3dm_to_glb_bytes d =
    ShibuyaScramble.extract_b3dm_to_glb_bytes d := rfl

/-- Closed form of the g2h.py parser. -/
theorem g2h_extract_eq (d : List Nat) : G2h.extract_b3dm_glb d =
    if d.length < 28 then .error .tooSmall
    else if ¬ magicOk d then .error .badMagic
    else if d.length ≤ glbOffset d then .error .offsetOutOfRange
    else if le32 d 8 ≤ d.length then .ok (glbOffset d, le32 d 8)
    else .ok (glbOffset d, d.length) := rfl

/-- The payload offset is always at least 28. -/
theorem glbOffset_ge (d : List Nat) : 28 ≤ glbOffset d := by
  unfold glbOffset; omega

/-- C1: for every byte sequence accepted by the container parser (length at
least 28, magic "b3dm", payload offset strictly below the buffer length),
`extract_b3dm_to_glb_bytes` returns the range [o, stop) with
28 ≤ o < stop ≤ len(data) and o = 28 plus the four little-endian u32 table
lengths at offsets 12, 16, 20 and 24; the extract_b3dm_to_glb.py copy agrees. -/
theorem parse_valid_range (d : List Nat) (hlen : 28 ≤ d.length)
    (hmagic : magicOk d = true) (hoff : glbOffset d < d.length) :
    ∃ stop, ShibuyaScramble.extract_b3dm_to_glb_bytes d = .ok (glbOffset d, stop) ∧
      28 ≤ glbOffset d ∧ glbOffset d < stop ∧ stop ≤ d.length ∧
      glbOffset d = 28 + le32 d 12 + le32 d 16 + le32 d 20 + le32 d 24 ∧
      B3dmToGlb.extract_b3dm_to_glb_bytes d = ShibuyaScramble.extract_b3dm_to_glb_bytes d := by
  refine ⟨if le32 d 8 ≤ d.length ∧ glbOffset d < le32 d 8 then le32 d 8 else d.length,
    ?_, glbOffset_ge d, ?_, ?_, rfl, b3dmToGlb_extract_eq d⟩
  · rw [shibuya_extract_eq]
    have h1 : ¬ d.length < 28 := by omega
    simp [h1, hmagic]
  · split_ifs with h <;> omega
  · split_ifs with h <;> omega

/-- Witness for parse_valid_range at the spec's §8 example container. -/
theorem parse_valid_range_witness :
    (28 ≤ demoValid.length ∧ magicOk demoValid = true ∧ glbOffset demoValid < demoValid.length) ∧
    (∃ stop, ShibuyaScramble.extract_b3dm_to_glb_bytes demoValid = .ok (glbOffset demoValid, stop) ∧
      28 ≤ glbOffset demoValid ∧ glbOffset demoValid < stop ∧ stop ≤ demoValid.length ∧
      glbOffset demoValid = 28 + le32 demoValid 12 + le32 demoValid 16 + le32 demoValid 20
        + le32 demoValid 24 ∧
      B3dmToGlb.extract_b3dm_to_glb_bytes demoValid
        = ShibuyaScramble.extract_b3dm_to_glb_bytes demoValid) :=
  ⟨by refine ⟨by decide, by decide, by decide⟩,
   parse_valid_range demoValid (by decide) (by decide) (by decide)⟩

/-- C2 counterexample: on a valid-magic 28-byte buffer whose payload offset
(28) equals the buffer length, the extract_shibuya_scramble.py /
extract_b3dm_to_glb.py parser does NOT fail: it returns the empty range
[28, 28), i.e. an empty payload, contradicting the claim that the parser
fails with OffsetOutOfRange whenever payload_offset ≥ len(data). -/
theorem parse_offset_at_end_returns_empty :
    demoOffsetAtEnd.length = 28 ∧ magicOk demoOffsetAtEnd = true ∧
    glbOffset demoOffsetAtEnd = 28 ∧
    ShibuyaScramble.extract_b3dm_to_glb_bytes demoOffsetAtEnd = .ok (28, 28) ∧
    B3dmToGlb.extract_b3dm_to_glb_bytes demoOffsetAtEnd = .ok (28, 28) ∧
    payloadSlice demoOffsetAtEnd 28 28 = [] :=
  ⟨rfl, rfl, rfl, rfl, rfl, rfl⟩

/-- C2 amended: when the computed payload offset is at least the buffer
length (after the size and magic checks pass), `extract_b3dm_glb` in g2h.py
fails with OffsetOutOfRange, while the two `extract_b3dm_to_glb_bytes`
parsers instead return the empty range [offset, len(data)), whose slice is
the empty payload. -/
theorem offset_out_of_range_split (d : List Nat) (hlen : 28 ≤ d.length)
    (hmagic : magicOk d = true) (hoff : d.length ≤ glbOffset d) :
    G2h.extract_b3dm_glb d = .error .offsetOutOfRange ∧
    ShibuyaScramble.extract_b3dm_to_glb_bytes d = .ok (glbOffset d, d.length) ∧
    B3dmToGlb.extract_b3dm_to_glb_bytes d = .ok (glbOffset d, d.length) ∧
    payloadSlice d (glbOffset d) d.length = [] := by
  have h1 : ¬ d.length < 28 := by omega
  have h2 : ¬ (le32 d 8 ≤ d.length ∧ glbOffset d < le32 d 8) := by omega
  refine ⟨?_, ?_, ?_, ?_⟩
  · rw [g2h_extract_eq]; simp [h1, hmagic, hoff]
  · rw [shibuya_extract_eq]; simp [h1, hmagic, h2]
  · rw [b3dmToGlb_extract_eq, shibuya_extract_eq]; simp [h1, hmagic, h2]
  · unfold payloadSlice
    refine List.drop_eq_nil_of_le ?_
    calc (d.take d.length).length ≤ d.length := by simp
      _ ≤ glbOffset d := hoff

/-- Witness for offset_out_of_range_split at the 28-byte all-zero-lengths
container. -/
theorem offset_out_of_range_split_witness :
    (28 ≤ demoOffsetAtEnd.length ∧ magicOk demoOffsetAtEnd = true ∧
      demoOffsetAtEnd.length ≤ glbOffset demoOffsetAtEnd) ∧
    (G2h.extract_b3dm_glb demoOffsetAtEnd = .error .offsetOutOfRange ∧
    ShibuyaScramble.extract_b3dm_to_glb_bytes demoOffsetAtEnd
      = .ok (glbOffset demoOffsetAtEnd, demoOffsetAtEnd.length) ∧
    B3dmToGlb.extract_b3dm_to_glb_bytes demoOffsetAtEnd
      = .ok (glbOffset demoOffsetAtEnd, demoOffsetAtEnd.length) ∧
    payloadSlice demoOffsetAtEnd (glbOffset demoOffsetAtEnd) demoOffsetAtEnd.length = []) :=
  ⟨⟨by decide, by decide, by decide⟩,
   offset_out_of_range_split demoOffsetAtEnd (by decide) (by decide) (by decide)⟩

/-- C6 counterexample: the extract_shibuya_scramble.py parser and the g2h.py
parser disagree on a concrete input: with byteLength 28 equal to the payload
offset and buffer length 30, the former falls back to the buffer length and
returns [28, 30) while the latter truncates at byteLength and returns the
empty range [28, 28). -/
theorem parsers_disagree :
    ShibuyaScramble.extract_b3dm_to_glb_bytes demoDisagree = .ok (28, 30) ∧
    G2h.extract_b3dm_glb demoDisagree = .ok (28, 28) ∧
    G2h.extract_b3dm_glb demoDisagree ≠ ShibuyaScramble.extract_b3dm_to_glb_bytes demoDisagree := by
  refine ⟨rfl, rfl, ?_⟩
  intro h
  rw [show G2h.extract_b3dm_glb demoDisagree = .ok (28, 28) from rfl,
    show ShibuyaScramble.extract_b3dm_to_glb_bytes demoDisagree = .ok (28, 30) from rfl] at h
  exact absurd (Except.ok.inj h) (by decide)

/-- C6 amended: the two `extract_b3dm_to_glb_bytes` copies agree on every
input; `extract_b3dm_glb` in g2h.py agrees with them on every input rejected
by the size or magic checks, and on every accepted input whose payload offset
is strictly below the buffer length and whose declared byteLength exceeds
either the payload offset or the buffer length; it disagrees otherwise
(raising OffsetOutOfRange when the offset reaches the buffer length, and
ending the range at byteLength instead of the buffer length when
byteLength ≤ offset < len(data)). -/
theorem parsers_agree_split :
    (∀ d : List Nat, B3dmToGlb.extract_b3dm_to_glb_bytes d
        = ShibuyaScramble.extract_b3dm_to_glb_bytes d) ∧
    (∀ d : List Nat, d.length < 28 ∨ magicOk d = false →
      G2h.extract_b3dm_glb d = ShibuyaScramble.extract_b3dm_to_glb_bytes d) ∧
    (∀ d : List Nat, glbOffset d < d.length →
      glbOffset d < le32 d 8 ∨ d.length < le32 d 8 →
      G2h.extract_b3dm_glb d = ShibuyaScramble.extract_b3dm_to_glb_bytes d) := by
  refine ⟨b3dmToGlb_extract_eq, ?_, ?_⟩
  · intro d h
    rw [g2h_extract_eq, shibuya_extract_eq]
    rcases h with h | h
    · simp [h]
    · by_cases h28 : d.length < 28 <;> simp [h, h28]
  · intro d hoff hlen
    rw [g2h_extract_eq, shibuya_extract_eq]
    have h28 : ¬ d.length < 28 := by
      have := glbOffset_ge d; omega
    by_cases hm : magicOk d
    · have hno : ¬ d.length ≤ glbOffset d := by omega
      simp only [h28, if_false, hm, not_true, if_neg, if_true]
      simp only [hno, if_false]
      by_cases hb : le32 d 8 ≤ d.length
      · have : le32 d 8 ≤ d.length ∧ glbOffset d < le32 d 8 := ⟨hb, by omega⟩
        simp [hb, this]
      · have : ¬ (le32 d 8 ≤ d.length ∧ glbOffset d < le32 d 8) := by omega
        simp [hb, this]
    · simp [hm]

/-- Witness for parsers_agree_split: its second and third parts applied at
the 28-byte short buffer [0] and at the spec's §8 valid container. -/
theorem parsers_agree_split_witness :
    (([0] : List Nat).length < 28 ∨ magicOk [0] = false) ∧
    G2h.extract_b3dm_glb [0] = ShibuyaScramble.extract_b3dm_to_glb_bytes [0] ∧
    (glbOffset demoValid < demoValid.length ∧
      (glbOffset demoValid < le32 demoValid 8 ∨ demoValid.length < le32 demoValid 8)) ∧
    G2h.extract_b3dm_glb demoValid = ShibuyaScramble.extract_b3dm_to_glb_bytes demoValid :=
  ⟨Or.inl (by decide),
   parsers_agree_split.2.1 [0] (Or.inl (by decide)),
   ⟨by decide, Or.inl (by decide)⟩,
   parsers_agree_split.2.2 demoValid (by decide) (Or.inl (by decide))⟩

/-- C5: for every linearly ordered coordinate type (hence for all real
inputs), `bbox_intersect` on a region whose first four entries are
west, south, east, north returns true exactly when NOT(lon_max < west OR
lon_min > east OR lat_max < south OR lat_min > north) — so touching edges
count as intersecting — and any entries beyond the first four (the two
heights) never influence the result. -/
theorem bbox_intersect_spec {α : Type*} [LinearOrder α] (w s e n : α)
    (rest rest' : List α) (lon_min lat_min lon_max lat_max : α) :
    (bbox_intersect (w :: s :: e :: n :: rest) (lon_min, lat_min, lon_max, lat_max) = true ↔
      ¬(lon_max < w ∨ lon_min > e ∨ lat_max < s ∨ lat_min > n)) ∧
    bbox_intersect (w :: s :: e :: n :: rest) (lon_min, lat_min, lon_max, lat_max)
      = bbox_intersect (w :: s :: e :: n :: rest') (lon_min, lat_min, lon_max, lat_max) := by
  constructor
  · show (if lon_max < w ∨ lon_min > e then false
      else if lat_max < s ∨ lat_min > n then false else true) = true ↔ _
    split_ifs with h1 h2
    · exact iff_of_false (by simp) (not_not_intro (by tauto))
    · exact iff_of_false (by simp) (not_not_intro (by tauto))
    · exact iff_of_true rfl (by tauto)
  · rfl

/-- C8: `bbox_intersect` is symmetric: with both rectangles given as
(min-lon, min-lat, max-lon, max-lat) quadruples, testing the first in the
region role against the second in the box role equals testing the second in
the region role against the first in the box role. -/
theorem bbox_intersect_symm {α : Type*} [LinearOrder α] (a b c d p q r s : α) :
    bbox_intersect [a, b, c, d] (p, q, r, s) = bbox_intersect [p, q, r, s] (a, b, c, d) := by
  show (if r < a ∨ p > c then false else if s < b ∨ q > d then false else true)
    = (if c < p ∨ a > r then false else if d < q ∨ b > s then false else true)
  by_cases h1 : r < a <;> by_cases h2 : c < p <;> by_cases h3 : s < b <;> by_cases h4 : d < q <;>
    simp [h1, h2, h3, h4]

theorem stepOK_refl (st : WalkerState) : StepOK st st :=
  ⟨fun _ h => h, ⟨[], by simp⟩, by omega, fun h => h, fun _ h => Or.inl h⟩

theorem stepOK_trans {s1 s2 s3 : WalkerState} (h12 : StepOK s1 s2) (h23 : StepOK s2 s3) :
    StepOK s1 s3 := by
  obtain ⟨m1, ⟨t1, o1⟩, e1, d1, n1⟩ := h12
  obtain ⟨m2, ⟨t2, o2⟩, e2, d2, n2⟩ := h23
  refine ⟨fun p hp => m2 p (m1 p hp), ⟨t1 ++ t2, by rw [o2, o1, List.append_assoc]⟩,
    by omega, fun h => d2 (d1 h), fun e he => ?_⟩
  rcases n2 e he with h | h
  · exact n1 e h
  · exact Or.inr h

/-- Counting outputs of source `p` after appending one record. -/
theorem srcCount_append (p : String) (outs : List (String × String × List Nat))
    (e : String × String × List Nat) :
    srcCount p (outs ++ [e]) = srcCount p outs + if e.1 = p then 1 else 0 := by
  simp only [srcCount, List.filter_append]
  by_cases h : e.1 = p
  · simp [h]
  · simp [h]


theorem srcCount_append2 (p a dst : String) (bytes : List Nat)
    (outs : List (String × String × List Nat)) :
    srcCount p (outs ++ [(a, dst, bytes)]) = srcCount p outs + if a = p then 1 else 0 := by
  simp only [srcCount, List.filter_append]
  by_cases h : a = p
  · simp [h]
  · simp [h]

theorem dedupInv_mark_and_output (st : WalkerState) (absolute dst : String) (bytes : List Nat)
    (hnot : absolute ∉ st.processed) (hinv : DedupInv st) :
    DedupInv { st with processed := absolute :: st.processed,
                       outputs := st.outputs ++ [(absolute, dst, bytes)] } := by
  have h0 : srcCount absolute st.outputs = 0 := by
    by_contra h
    exact hnot ((hinv absolute).2 (by omega))
  intro p
  constructor
  · show srcCount p (st.outputs ++ [(absolute, dst, bytes)]) ≤ 1
    rw [srcCount_append2]
    by_cases hp : absolute = p
    · subst hp
      rw [if_pos rfl, h0]
    · rw [if_neg hp, Nat.add_zero]
      exact (hinv p).1
  · show 1 ≤ srcCount p (st.outputs ++ [(absolute, dst, bytes)]) → p ∈ absolute :: st.processed
    rw [srcCount_append2]
    by_cases hp : absolute = p
    · subst hp
      exact fun _ => List.mem_cons_self _ _
    · rw [if_neg hp, Nat.add_zero]
      exact fun h => List.mem_cons_of_mem _ ((hinv p).2 h)

theorem dstOfName_b3dm (p : String) (h : strLower (pathSuffix p) = ".b3dm") :
    dstOfName (fileName p) = some (pathStem p ++ ".glb") := by
  unfold pathSuffix at h
  unfold dstOfName pathStem
  rw [if_pos h]

theorem dstOfName_copy (p : String)
    (h : strLower (pathSuffix p) = ".glb" ∨ strLower (pathSuffix p) = ".gltf") :
    dstOfName (fileName p) = some (fileName p) := by
  unfold pathSuffix at h
  unfold dstOfName
  rw [if_neg, if_pos h]
  intro hb
  rcases h with hg | hg <;> rw [hg] at hb <;> exact absurd hb (by decide)

theorem contentStep_ok (fs : String → Option (List Nat)) (base : String)
    (content : Option String) (st : WalkerState) :
    StepOK st (contentStep fs base content st) := by
  unfold contentStep
  cases content with
  | none => exact stepOK_refl st
  | some uri =>
    by_cases hu : uri = ""
    · simp only [hu, if_pos rfl]; exact stepOK_refl st
    · simp only [if_neg hu]
      cases hfs : fs (resolvePath base uri) with
      | none => exact stepOK_refl st
      | some data =>
        dsimp only
        by_cases h1 : strLower (pathSuffix (resolvePath base uri)) = ".b3dm"
            ∧ resolvePath base uri ∉ st.processed
        · rw [if_pos h1]
          cases hex : B3dmToGlb.extract_b3dm_to_glb_bytes data with
          | ok oe =>
            refine ⟨fun p hp => List.mem_cons_of_mem _ hp,
              ⟨[(resolvePath base uri, pathStem (resolvePath base uri) ++ ".glb",
                 payloadSlice data oe.1 oe.2)], rfl⟩, ?_, ?_, ?_⟩
            · simp only [List.length_append, List.length_cons, List.length_nil]; omega
            · exact fun hinv => dedupInv_mark_and_output st _ _ _ h1.2 hinv
            · intro e he
              rcases List.mem_append.mp he with h | h
              · exact Or.inl h
              · right
                rw [List.mem_singleton.mp h]
                exact dstOfName_b3dm _ h1.1
          | error err =>
            refine ⟨fun p hp => List.mem_cons_of_mem _ hp, ⟨[], by simp⟩, by simp, ?_,
              fun e he => Or.inl he⟩
            intro hinv p
            exact ⟨(hinv p).1, fun h => List.mem_cons_of_mem _ ((hinv p).2 h)⟩
        · rw [if_neg h1]
          by_cases h2 : (strLower (pathSuffix (resolvePath base uri)) = ".glb"
                ∨ strLower (pathSuffix (resolvePath base uri)) = ".gltf")
              ∧ resolvePath base uri ∉ st.processed
          · rw [if_pos h2]
            refine ⟨fun p hp => List.mem_cons_of_mem _ hp,
              ⟨[(resolvePath base uri, fileName (resolvePath base uri), data)], rfl⟩, ?_, ?_, ?_⟩
            · simp only [List.length_append, List.length_cons, List.length_nil]; omega
            · exact fun hinv => dedupInv_mark_and_output st _ _ _ h2.2 hinv
            · intro e he
              rcases List.mem_append.mp he with h | h
              · exact Or.inl h
              · right
                rw [List.mem_singleton.mp h]
                exact dstOfName_copy _ h2.1
          · rw [if_neg h2]; exact stepOK_refl st

theorem process_tile_factor (fs : String → Option (List Nat)) (box : ℚ × ℚ × ℚ × ℚ)
    (bv : Option BoundingVolume) (content : Option String) (children : List Tile)
    (base : String) (st : WalkerState) :
    process_tile fs box (.mk bv content children) base st
      = process_children fs box children base
          (if tileIntersects box bv then contentStep fs base content st else st) := by
  rcases bv with _ | ⟨_ | (_ | ⟨x, xs⟩)⟩
  · simp only [process_tile, tileIntersects, tileRegion, contentStep, if_true]
  · simp only [process_tile, tileIntersects, tileRegion, contentStep, if_true]
  · simp only [process_tile, tileIntersects, tileRegion, contentStep, if_true]
  · simp only [process_tile, tileIntersects, tileRegion, contentStep]

theorem walk_ok_aux (fs : String → Option (List Nat)) (box : ℚ × ℚ × ℚ × ℚ) : ∀ N : Nat,
    (∀ (t : Tile) (base : String) (st : WalkerState), sizeOf t ≤ N →
      StepOK st (process_tile fs box t base st)) ∧
    (∀ (ts : List Tile) (base : String) (st : WalkerState), sizeOf ts ≤ N →
      StepOK st (process_children fs box ts base st)) := by
  intro N
  induction N with
  | zero =>
    constructor
    · intro t base st hle
      exact absurd hle (by cases t; simp)
    · intro ts base st hle
      exact absurd hle (by cases ts <;> simp)
  | succ N ih =>
    constructor
    · intro t base st hle
      cases t with
      | mk bv c cs =>
        rw [process_tile_factor]
        refine stepOK_trans ?_ (ih.2 cs base _ ?_)
        · by_cases h : tileIntersects box bv
          · rw [if_pos h]; exact contentStep_ok fs base c st
          · rw [if_neg h]; exact stepOK_refl st
        · simp only [Tile.mk.sizeOf_spec] at hle
          omega
    · intro ts base st hle
      cases ts with
      | nil =>
        show StepOK st st
        exact stepOK_refl st
      | cons t rest =>
        show StepOK st (process_children fs box rest base (process_tile fs box t base st))
        simp only [List.cons.sizeOf_spec] at hle
        exact stepOK_trans (ih.1 t base st (by omega)) (ih.2 rest base _ (by omega))

theorem run_walk_ok (fs : String → Option (List Nat)) (box : ℚ × ℚ × ℚ × ℚ)
    (ms : List Manifest) (st : WalkerState) : StepOK st (run_walk fs box ms st) := by
  induction ms generalizing st with
  | nil => exact stepOK_refl st
  | cons m rest ih =>
    show StepOK st (run_walk fs box rest (process_children fs box m.roots m.dir st))
    exact stepOK_trans ((walk_ok_aux fs box (sizeOf m.roots)).2 m.roots m.dir st le_rfl) (ih _)

/-- C3: a `process_tile` visit recurses into every child of the node with the
same `base_path` regardless of the node's own intersection flag, while the
node's own content step is applied exactly when the flag is true: the visit
equals the children walk run after the intersection-gated content step, so a
non-intersecting node contributes nothing of its own and each descendant is
still evaluated independently against the target box. -/
theorem walker_unconditional_recursion (fs : String → Option (List Nat))
    (box : ℚ × ℚ × ℚ × ℚ) (bv : Option BoundingVolume) (content : Option String)
    (children : List Tile) (base : String) (st : WalkerState) :
    process_tile fs box (.mk bv content children) base st
      = process_children fs box children base
          (if tileIntersects box bv then contentStep fs base content st else st) :=
  process_tile_factor fs box bv content children base st

/-- C7: a node with no bounding volume is treated as intersecting, so its
visit applies the content step unconditionally (processing an existing
referenced file exactly as an intersecting node would) before recursing into
the children. -/
theorem walker_no_bounding_volume (fs : String → Option (List Nat))
    (box : ℚ × ℚ × ℚ × ℚ) (content : Option String) (children : List Tile)
    (base : String) (st : WalkerState) :
    tileIntersects box none = true ∧
    process_tile fs box (.mk none content children) base st
      = process_children fs box children base (contentStep fs base content st) := by
  refine ⟨rfl, ?_⟩
  rw [process_tile_factor]
  rfl

/-- C9: a node whose boundingVolume has no region entry, and a node whose
region value is the empty list, behave exactly like a node with no bounding
volume: the intersects flag stays true and the visit is identical. -/
theorem walker_missing_region_like_none (fs : String → Option (List Nat))
    (box : ℚ × ℚ × ℚ × ℚ) (content : Option String) (children : List Tile)
    (base : String) (st : WalkerState) :
    tileIntersects box (some ⟨none⟩) = true ∧
    tileIntersects box (some ⟨some []⟩) = true ∧
    process_tile fs box (.mk (some ⟨none⟩) content children) base st
      = process_tile fs box (.mk none content children) base st ∧
    process_tile fs box (.mk (some ⟨some []⟩) content children) base st
      = process_tile fs box (.mk none content children) base st := by
  refine ⟨rfl, rfl, ?_, ?_⟩ <;> (rw [process_tile_factor, process_tile_factor]; rfl)

/-- C4: over one full walker run (any manifests, any file system, any target
box, starting from the empty state), every resolved absolute path produces at
most one output, the source of every output is recorded in the processed set,
and the success counter equals the number of outputs, so each path increments
it at most once even when referenced by several tiles or manifests; moreover
a path whose extraction fails is still marked processed (the set is updated
before the extraction attempt) while producing no output and no count. -/
theorem walker_dedup_at_most_once (fs : String → Option (List Nat))
    (box : ℚ × ℚ × ℚ × ℚ) (ms : List Manifest) :
    (∀ p, srcCount p (run_walk fs box ms initState).outputs ≤ 1) ∧
    (run_walk fs box ms initState).outputs.all
      (fun e => decide (e.1 ∈ (run_walk fs box ms initState).processed)) = true ∧
    (run_walk fs box ms initState).extracted = (run_walk fs box ms initState).outputs.length ∧
    (contentStep demoFailParse "base" (some "x.b3dm") initState).processed = ["base/x.b3dm"] ∧
    (contentStep demoFailParse "base" (some "x.b3dm") initState).outputs = [] ∧
    (contentStep demoFailParse "base" (some "x.b3dm") initState).extracted = 0 := by
  have h := run_walk_ok fs box ms initState
  have hinv : DedupInv initState := by
    intro p
    constructor
    · show srcCount p [] ≤ 1
      simp [srcCount]
    · show 1 ≤ srcCount p [] → p ∈ ([] : List String)
      simp [srcCount]
  have h4 := h.2.2.2.1 hinv
  refine ⟨fun p => (h4 p).1, ?_, ?_, rfl, rfl, rfl⟩
  · rw [List.all_eq_true]
    intro e he
    rw [decide_eq_true_eq]
    refine (h4 e.1).2 ?_
    have hf : e ∈ (run_walk fs box ms initState).outputs.filter (fun x => x.1 == e.1) :=
      List.mem_filter.mpr ⟨he, by simp⟩
    exact List.length_pos.mpr (List.ne_nil_of_mem hf)
  · have h3 := h.2.2.1
    have e0 : initState.outputs.length = 0 := rfl
    have e1 : initState.extracted = 0 := rfl
    omega

/-- C10: every output record of a full walker run has a destination name that
is a function of the source path's base name alone (`dstOfName` of the file
name: stem + ".glb" for containers, the unchanged name for pass-through
assets); hence two distinct source paths sharing a base name are written to
the same destination, the later write landing on the earlier one's path while
the success counter still counts both. -/
theorem walker_dst_from_basename (fs : String → Option (List Nat))
    (box : ℚ × ℚ × ℚ × ℚ) (ms : List Manifest) :
    (run_walk fs box ms initState).outputs.all
      (fun e => dstOfName (fileName e.1) == some e.2.1) = true := by
  rw [List.all_eq_true]
  intro e he
  rcases (run_walk_ok fs box ms initState).2.2.2.2 e he with h | h
  · exact absurd h (List.not_mem_nil e)
  · simp [h]
